import Mathlib

/-!
Verification of the secure-string crate against its specification.

The development shallowly embeds the crate:
pointer-plus-length byte regions become the lists of bytes they contain,
bytes become `Nat` (for values below 256 the bitwise operations `Nat.xor`
and `Nat.lor` agree with the 8-bit operations and never exceed the width
of their operands, so no reduction modulo 2 ^ 8 is needed),
heap vectors become lists, and the memory-lock calls, which have no
value-level effect, are elided.
-/

/-- The constant-time byte comparator `timing_attack_proof_cmp` of
`src/secure_utils.rs`. The two regions `(us, us_len)` and `(them, them_len)`
are modelled as the byte lists `us` and `them`, whose lengths are the region
lengths. Mirroring the source: if the lengths differ, return `false`;
otherwise loop over `i in 0..us_len`, read the byte of each region at `i`
(the volatile reads become list lookups, in bounds for every loop index),
accumulate `result |= us_val ^ them_val`, and finally return `result == 0`. -/
def timing_attack_proof_cmp (us them : List Nat) : Bool :=
  if us.length ≠ them.length then false
  else
    let result : Nat := (List.range us.length).foldl
      (fun result i => result ||| (us.getD i 0 ^^^ them.getD i 0)) 0
    result == 0

/-- The comparator `cmp` of the private module `mem` in `src/lib.rs`,
whose body is byte-for-byte the one of `timing_attack_proof_cmp` in
`src/secure_utils.rs`. -/
def Mem.cmp (us them : List Nat) : Bool :=
  if us.length ≠ them.length then false
  else
    let result : Nat := (List.range us.length).foldl
      (fun result i => result ||| (us.getD i 0 ^^^ them.getD i 0)) 0
    result == 0

theorem Mem.cmp_eq_timing_cmp (us them : List Nat) :
    Mem.cmp us them = timing_attack_proof_cmp us them := rfl

theorem Nat.lor_eq_zero_iff (m n : Nat) : m ||| n = 0 ↔ m = 0 ∧ n = 0 := by
  constructor
  · intro h
    constructor
    · apply Nat.zero_of_testBit_eq_false
      intro i
      have hb := congrArg (fun x => Nat.testBit x i) h
      simp only [Nat.testBit_lor, Nat.zero_testBit, Bool.or_eq_false_iff] at hb
      exact hb.1
    · apply Nat.zero_of_testBit_eq_false
      intro i
      have hb := congrArg (fun x => Nat.testBit x i) h
      simp only [Nat.testBit_lor, Nat.zero_testBit, Bool.or_eq_false_iff] at hb
      exact hb.2
  · rintro ⟨rfl, rfl⟩
    rfl

theorem foldl_lor_eq_zero (l : List Nat) (acc : Nat) :
    l.foldl (· ||| ·) acc = 0 ↔ acc = 0 ∧ ∀ x ∈ l, x = 0 := by
  induction l generalizing acc with
  | nil => simp
  | cons x xs ih =>
    simp only [List.foldl_cons, ih, Nat.lor_eq_zero_iff, List.mem_cons]
    constructor
    · rintro ⟨⟨h1, h2⟩, h3⟩
      exact ⟨h1, fun y hy => hy.elim (fun he => he ▸ h2) (h3 y)⟩
    · rintro ⟨h1, h2⟩
      exact ⟨⟨h1, h2 x (Or.inl rfl)⟩, fun y hy => h2 y (Or.inr hy)⟩

theorem cmp_loop_eq_zero_iff (a b : List Nat) :
    ((List.range a.length).foldl
        (fun result i => result ||| (a.getD i 0 ^^^ b.getD i 0)) 0 = 0)
      ↔ ∀ i < a.length, a.getD i 0 = b.getD i 0 := by
  rw [← List.foldl_map (fun i => a.getD i 0 ^^^ b.getD i 0) (· ||| ·),
    foldl_lor_eq_zero]
  simp only [List.mem_map, List.mem_range, true_and]
  constructor
  · intro h i hi
    exact Nat.xor_eq_zero.mp (h _ ⟨i, hi, rfl⟩)
  · rintro h x ⟨i, hi, rfl⟩
    exact Nat.xor_eq_zero.mpr (h i hi)

theorem list_eq_iff_getD_eq (a b : List Nat) (h : a.length = b.length) :
    (∀ i < a.length, a.getD i 0 = b.getD i 0) ↔ a = b := by
  constructor
  · intro hp
    apply List.ext_getElem h
    intro i h1 h2
    have := hp i h1
    rwa [List.getD_eq_getElem?_getD, List.getD_eq_getElem?_getD,
      List.getElem?_eq_getElem h1, List.getElem?_eq_getElem h2,
      Option.getD_some, Option.getD_some] at this
  · rintro rfl
    intro i _
    rfl

/-- The comparator returns `true` exactly on equal byte sequences. -/
theorem timing_cmp_eq_true_iff (a b : List Nat) :
    timing_attack_proof_cmp a b = true ↔ a = b := by
  unfold timing_attack_proof_cmp
  by_cases h : a.length = b.length
  · simp only [h, ne_eq, not_true_eq_false, if_false, beq_iff_eq]
    rw [← h, cmp_loop_eq_zero_iff, list_eq_iff_getD_eq a b h]
  · rw [if_pos h]
    simp only [Bool.false_eq_true, false_iff]
    intro he
    exact h (he ▸ rfl)

/-- The growable secure buffer `SecureVec<T>` of `src/secure_types/vec.rs`:
a wrapper around a vector of elements. The vector is modelled by the list of
its live elements; the `mlock` performed by `SecureVec::new` has no
value-level effect and is elided. -/
structure SecureVec (α : Type) where
  content : List α

/-- `SecureVec::new` (`src/secure_types/vec.rs`): locks the memory of the
incoming vector (elided here) and stores it. -/
def SecureVec.new {α : Type} (cont : List α) : SecureVec α :=
  SecureVec.mk cont

/-- The equality generated for `SecureVec` by `#[derive(PartialEq)]`
(`src/secure_types/vec.rs` line 23): structural, field-by-field comparison,
that is equality of the two content vectors. -/
def SecureVec.beq {α : Type} [BEq α] (a b : SecureVec α) : Bool :=
  a.content == b.content

/-- The byte-vector instantiation `SecVec<u8>` (alias `SecStr`) of
`src/lib.rs`: the vector is modelled by the list of its live bytes. -/
structure SecVec where
  content : List Nat

/-- `impl PartialEq for SecVec` of `src/lib.rs` (lines 455-503),
instantiated at `T = u8`: calls `mem::cmp` on the two live byte ranges,
passing each content pointer and `len * size_of::<u8>() = len` bytes; the
byte range of a `u8` vector is its content itself. -/
def SecVec.beq (a b : SecVec) : Bool :=
  Mem.cmp a.content b.content

/-- C1: for all byte sequences `a` and `b`, equality of the secure
containers wrapping them — `SecVec` via its `PartialEq` implementation,
`SecureVec` via its derived `PartialEq`, and the underlying byte comparator
applied to the two regions — returns `true` if and only if `a` and `b` are
equal as plain sequences (same length, identical bytes at every index). -/
theorem container_equality_iff_plain_equality (a b : List Nat) :
    (SecVec.beq (SecVec.mk a) (SecVec.mk b) = true ↔ a = b)
    ∧ (SecureVec.beq (SecureVec.mk a) (SecureVec.mk b) = true ↔ a = b)
    ∧ (timing_attack_proof_cmp a b = true ↔ a = b) := by
  refine ⟨?_, ?_, timing_cmp_eq_true_iff a b⟩
  · rw [SecVec.beq, Mem.cmp_eq_timing_cmp]
    exact timing_cmp_eq_true_iff a b
  · rw [SecureVec.beq]
    simp only [beq_iff_eq]

/-- The comparison algorithm as the specification words it: if the two
lengths differ, return `false` immediately, without touching any content
byte; otherwise pair up the bytes of the two regions index by index over the
whole length, xor each pair, accumulate the xored pairs into a running byte
with bitwise or, and after the full scan return whether the accumulator is
zero. -/
def cmpSpecAlgorithm (a b : List Nat) : Bool :=
    if a.length ≠ b.length then false
    else (List.zipWith (fun x y => x ^^^ y) a b).foldl (fun acc d => acc ||| d) 0 == 0

theorem zipWith_xor_all_zero_iff (a b : List Nat) (h : a.length = b.length) :
    (∀ x ∈ List.zipWith (fun x y => x ^^^ y) a b, x = 0) ↔ a = b := by
  induction a generalizing b with
  | nil =>
    cases b with
    | nil => simp
    | cons y ys => simp at h
  | cons x xs ih =>
    cases b with
    | nil => simp at h
    | cons y ys =>
      simp only [List.length_cons, Nat.succ.injEq] at h
      simp only [List.zipWith_cons_cons, List.mem_cons, List.cons.injEq]
      constructor
      · intro hz
        refine ⟨Nat.xor_eq_zero.mp (hz _ (Or.inl rfl)), ?_⟩
        exact (ih ys h).mp (fun z hz2 => hz z (Or.inr hz2))
      · rintro ⟨rfl, rfl⟩
        intro z hz
        rcases hz with hz | hz
        · rw [hz, Nat.xor_self]
        · exact ((ih _ h).mpr rfl) z hz

theorem cmpSpecAlgorithm_eq_true_iff (a b : List Nat) :
    cmpSpecAlgorithm a b = true ↔ a = b := by
  unfold cmpSpecAlgorithm
  by_cases h : a.length = b.length
  · rw [if_neg (by simp [h])]
    simp only [beq_iff_eq]
    rw [foldl_lor_eq_zero]
    simp only [true_and]
    exact zipWith_xor_all_zero_iff a b h
  · rw [if_pos h]
    simp only [Bool.false_eq_true, false_iff]
    intro he
    exact h (he ▸ rfl)

/-- C2: the constant-time comparator follows exactly the specified steps —
differing lengths yield `false` immediately without reading content;
otherwise every index in `0..length` is visited, one byte is read from each
region per index, the xor of the pair is or-accumulated into a running byte,
and after the full scan the result is whether the accumulator is zero. -/
theorem cmp_follows_spec_algorithm (a b : List Nat) :
    timing_attack_proof_cmp a b = cmpSpecAlgorithm a b := by
  rw [Bool.eq_iff_iff, timing_cmp_eq_true_iff, cmpSpecAlgorithm_eq_true_iff]

/-- `Vec::truncate` as called by `SecureVec::resize`
(`src/secure_types/vec.rs` line 64): keeps the first `new_len` elements and
drops the rest; a no-op when `new_len` is at least the length. -/
def vecTruncate {α : Type} (c : List α) (new_len : Nat) : List α :=
  c.take new_len

/-- `new_vec[0..self.content.len()].copy_from_slice(&self.content)`
(`src/secure_types/vec.rs` line 71): overwrites the leading
`src.length` slots of `dest` with `src`, keeping the trailing slots. -/
def copyFromSlice {α : Type} (dest src : List α) : List α :=
  src ++ dest.drop src.length

/-- `SecureVec::resize` (`src/secure_types/vec.rs` lines 61-77; the
identical `SecVec::resize` is at `src/lib.rs` lines 360-376): if
`new_len <= len`, truncate in place; otherwise build `vec![value; new_len]`,
lock it (elided), copy the old live elements into its front, zero out and
unlock the old vector (elided — the old buffer is discarded), and adopt the
new vector. -/
def SecureVec.resize {α : Type} (v : SecureVec α) (new_len : Nat) (value : α) :
    SecureVec α :=
  if new_len ≤ v.content.length then SecureVec.mk (vecTruncate v.content new_len)
  else SecureVec.mk (copyFromSlice (List.replicate new_len value) v.content)

/-- C4: for every secure vector with length `len`, every `n` and every fill
value `x`: `resize(n, x)` with `n <= len` leaves the first `n` elements
unchanged and truncates the length to `n` (content becomes `take n`);
`resize(n, x)` with `n > len` yields length `n`, the first `len` elements
being the old contents and the remaining `n - len` all being `x` (content
becomes the old contents followed by `n - len` copies of `x`). -/
theorem resize_truncates_or_extends {α : Type} (v : SecureVec α) (n : Nat) (x : α) :
    (v.resize n x).content =
      if n ≤ v.content.length then v.content.take n
      else v.content ++ List.replicate (n - v.content.length) x := by
  unfold SecureVec.resize vecTruncate copyFromSlice
  by_cases h : n ≤ v.content.length
  · rw [if_pos h, if_pos h]
  · rw [if_neg h, if_neg h]
    congr 1
    rw [List.drop_replicate]

/-- The backing store of a Rust `Vec<T>` at the memory level, refining the
content-only view where the claim is about the allocation: `mem` lists the
contents of the initialized region of the backing allocation (its length is
the number of initialized slots, the capacity of this model) and `len` is
the logical length, with `len ≤ mem.length` for every vector the crate
builds. -/
structure VecMem (α : Type) where
  mem : List α
  len : Nat

def VecMem.capacity {α : Type} (v : VecMem α) : Nat :=
  v.mem.length

/-- The live elements seen through `SecureVec::unsecure`
(`src/secure_types/vec.rs`): the first `len` initialized slots. -/
def VecMem.unsecure {α : Type} (v : VecMem α) : List α :=
  v.mem.take v.len

/-- `Vec::set_len` (used by the crate test `test_zero_out` in
`src/secure_types/vec.rs` to re-expose the zeroed slots): sets the logical
length, leaving memory untouched. -/
def VecMem.set_len {α : Type} (v : VecMem α) (new_len : Nat) : VecMem α :=
  { v with len := new_len }

/-- `SecureVec::zero_out` (`src/secure_types/vec.rs` lines 82-84; the
identical `SecVec::zero_out` is at `src/lib.rs` lines 381-384): calls
`self.content.zeroize()`. `Vec::zeroize` from the zeroize dependency
zeroizes every live element in place (`self.iter_mut().zeroize()`, each byte
element becoming `0`) and then clears the vector (`self.clear()`), which
sets the length to `0` without touching the allocation. -/
def VecMem.zero_out (v : VecMem Nat) : VecMem Nat :=
  { mem := List.replicate v.len 0 ++ v.mem.drop v.len, len := 0 }

/-- C5: for every secure vector, `zero_out()` overwrites all previously-live
elements with zero — restoring the original length afterwards observes a
sequence of that length consisting entirely of zeros — sets the logical
length to `0`, and leaves the capacity unchanged. -/
theorem zero_out_zeroes_and_clears_length (v : VecMem Nat)
    (h : v.len ≤ v.mem.length) :
    ((v.zero_out.set_len v.len).unsecure = List.replicate v.len 0)
    ∧ v.zero_out.len = 0
    ∧ v.zero_out.capacity = v.capacity := by
  refine ⟨?_, rfl, ?_⟩
  · show (List.replicate v.len 0 ++ v.mem.drop v.len).take v.len = _
    exact List.take_left' (List.length_replicate v.len 0)
  · show (List.replicate v.len 0 ++ v.mem.drop v.len).length = v.mem.length
    rw [List.length_append, List.length_replicate, List.length_drop]
    omega

/-- Witness for C5 at the vector with initialized region `[104, 105, 33]`
and length 2. -/
theorem zero_out_zeroes_and_clears_length_witness :
    (((VecMem.mk [104, 105, 33] 2).zero_out.set_len 2).unsecure
        = List.replicate 2 0)
    ∧ (VecMem.mk [104, 105, 33] 2).zero_out.len = 0
    ∧ (VecMem.mk [104, 105, 33] 2).zero_out.capacity
        = (VecMem.mk [104, 105, 33] 2).capacity :=
  zero_out_zeroes_and_clears_length (VecMem.mk [104, 105, 33] 2) (by decide)

/-- The fixed-length secure buffer `SecureArray<T, LENGTH>` of
`src/secure_types/array.rs`, instantiated at `T = u8` (bytes as `Nat`): an
inline array of exactly `LENGTH` elements. The `mlock` in `SecureArray::new`
is elided. -/
structure SecureArray (LENGTH : Nat) where
  content : List Nat
  hlength : content.length = LENGTH

/-- `SecureArray::new` (`src/secure_types/array.rs` lines 34-37): locks the
memory of the incoming array (elided) and stores it. -/
def SecureArray.new {LENGTH : Nat} (c : { l : List Nat // l.length = LENGTH }) :
    SecureArray LENGTH :=
  SecureArray.mk c.1 c.2

/-- `SecureArray::unsecure` (`src/secure_types/array.rs` lines 40-42):
borrows the whole inline array as a slice. -/
def SecureArray.unsecure {LENGTH : Nat} (a : SecureArray LENGTH) : List Nat :=
  a.content

/-- `SecureArray::zero_out` (`src/secure_types/array.rs` lines 50-52):
calls `self.content.zeroize()`; the zeroize dependency zeroizes a fixed-size
array by zeroizing each element in place (`self.iter_mut().zeroize()`), so
every byte element becomes `0` and the length stays `LENGTH`. -/
def SecureArray.zero_out {LENGTH : Nat} (a : SecureArray LENGTH) :
    SecureArray LENGTH :=
  SecureArray.mk (a.content.map (fun _ => 0))
    (by rw [List.length_map, a.hlength])

/-- C10: for every `SecureArray<T, LENGTH>`, `zero_out()` leaves the logical
length unchanged — `unsecure()` afterwards still returns a slice of exactly
`LENGTH` elements, all of them zero — unlike the growable secure vector,
whose `zero_out` resets the logical length to `0`. -/
theorem securearray_zero_out_keeps_length (LENGTH : Nat)
    (a : SecureArray LENGTH) :
    a.zero_out.unsecure.length = LENGTH
    ∧ a.zero_out.unsecure = List.replicate LENGTH 0
    ∧ (∀ v : VecMem Nat, v.zero_out.len = 0) := by
  refine ⟨a.zero_out.hlength, ?_, fun _ => rfl⟩
  show a.content.map (fun _ => 0) = List.replicate LENGTH 0
  rw [List.map_const', a.hlength]

/-- The error type `std::array::TryFromSliceError` used by the `FromStr`
implementation of `SecureArray` (`src/secure_types/array.rs` line 72): in
the standard library it is a struct with no public state (a unit-like
payload), so it is a single fieldless value. -/
inductive TryFromSliceError where
  | mk
deriving DecidableEq

/-- The length information a `TryFromSliceError` carries: none, since the
type has no fields at all. -/
def TryFromSliceError.reportedLengths : TryFromSliceError → Option (Nat × Nat) :=
  fun _ => none

/-- `s.as_bytes().try_into()` for `[u8; LENGTH]`
(`src/secure_types/array.rs` line 75): the standard conversion of a slice
into a fixed-size array, which succeeds exactly when the slice length equals
`LENGTH` and otherwise fails with a `TryFromSliceError`. -/
def sliceTryInto (LENGTH : Nat) (s : List Nat) :
    Except TryFromSliceError { l : List Nat // l.length = LENGTH } :=
  if h : s.length = LENGTH then Except.ok ⟨s, h⟩
  else Except.error TryFromSliceError.mk

/-- `impl FromStr for SecureArray<u8, LENGTH>`
(`src/secure_types/array.rs` lines 71-77):
`Ok(SecureArray::new(s.as_bytes().try_into()?))`; the string is modelled by
its UTF-8 bytes. -/
def SecureArray.fromStr (LENGTH : Nat) (s : List Nat) :
    Except TryFromSliceError (SecureArray LENGTH) :=
  (sliceTryInto LENGTH s).map SecureArray.new

/-- C6: constructing a `SecureArray` of length `LENGTH` from a
variable-length source fails with a length-mismatch error if and only if the
source length differs from `LENGTH`; when the lengths are equal,
construction succeeds and the contents equal the source elements. -/
theorem securearray_construction_length_check (LENGTH : Nat) (s : List Nat) :
    (SecureArray.fromStr LENGTH s = Except.error TryFromSliceError.mk
      ↔ s.length ≠ LENGTH)
    ∧ (∀ a : SecureArray LENGTH,
        SecureArray.fromStr LENGTH s = Except.ok a → a.content = s) := by
  constructor
  · unfold SecureArray.fromStr sliceTryInto
    by_cases h : s.length = LENGTH
    · rw [dif_pos h]
      simp [Except.map, h]
    · rw [dif_neg h]
      simp [Except.map, h]
  · intro a ha
    unfold SecureArray.fromStr sliceTryInto at ha
    by_cases h : s.length = LENGTH
    · rw [dif_pos h] at ha
      simp only [Except.map, Except.ok.injEq] at ha
      rw [← ha]
      rfl
    · rw [dif_neg h] at ha
      simp [Except.map] at ha

/-- Witness for C6 at `LENGTH = 5` and the bytes of `hello`. -/
theorem securearray_construction_length_check_witness :
    (SecureArray.mk [104, 101, 108, 108, 111] rfl).content
      = [104, 101, 108, 108, 111] :=
  (securearray_construction_length_check 5 [104, 101, 108, 108, 111]).2
    (SecureArray.mk [104, 101, 108, 108, 111] rfl) rfl

/-- C7, counterexample: at the exact scenario the claim gives — a 6-byte
source (`hello!`) into a length-5 target — the `FromStr` construction path
of `SecureArray` (`src/secure_types/array.rs` lines 71-77) fails with
`std::array::TryFromSliceError`, a fieldless error that reports no expected
or actual length at all, so no error reporting expected 5, actual 6 is
produced on this path. -/
theorem fromstr_error_reports_no_lengths :
    SecureArray.fromStr 5 [104, 101, 108, 108, 111, 33]
      = Except.error TryFromSliceError.mk
    ∧ TryFromSliceError.reportedLengths TryFromSliceError.mk = none :=
  ⟨rfl, rfl⟩

/-- The length-mismatch error of the secure-conversion interface, carrying
the expected and the actual length. -/
inductive SecureConversionError where
  | lengthMismatch (expected actual : Nat)
deriving DecidableEq

/-- Modelled from the spec: the conversion of a variable-length byte vector
into the fixed-length buffer — the `TryFrom<Vec<u8>>` implementation for
`SecureArray<u8, LENGTH>` that `BytesVisitor` in `src/serde.rs` invokes,
whose definition is not among the provided sources. Per the spec, it fails
with a length-mismatch error carrying the expected and the actual length
when the source length differs from the fixed length, and otherwise
constructs the container from the source bytes. -/
def SecureArray.tryFromVec (LENGTH : Nat) (v : List Nat) :
    Except SecureConversionError (SecureArray LENGTH) :=
  if h : v.length = LENGTH then Except.ok (SecureArray.mk v h)
  else Except.error (SecureConversionError.lengthMismatch LENGTH v.length)

/-- C7, amended: on the deserialization conversion path (modelled from the
spec, the `TryFrom` implementation being outside the provided sources) the
length-mismatch error carries the expected and the actual length — a
length-5 target built from a 6-byte source reports expected 5, actual 6 —
while the `FromStr` construction path fails with the standard fieldless
slice-conversion error, which carries no lengths. -/
theorem tryfrom_error_carries_lengths (LENGTH : Nat) (v : List Nat)
    (h : v.length ≠ LENGTH) :
    SecureArray.tryFromVec LENGTH v
      = Except.error (SecureConversionError.lengthMismatch LENGTH v.length)
    ∧ TryFromSliceError.reportedLengths TryFromSliceError.mk = none := by
  refine ⟨?_, rfl⟩
  unfold SecureArray.tryFromVec
  rw [dif_neg h]

/-- Witness for the amended C7 at the 6-byte source `hello!` and a length-5
target: the reported lengths are expected 5, actual 6. -/
theorem tryfrom_error_carries_lengths_witness :
    SecureArray.tryFromVec 5 [104, 101, 108, 108, 111, 33]
      = Except.error (SecureConversionError.lengthMismatch 5 6)
    ∧ TryFromSliceError.reportedLengths TryFromSliceError.mk = none :=
  tryfrom_error_carries_lengths 5 [104, 101, 108, 108, 111, 33] (by decide)

/-- `impl Serialize for SecureVec<u8>` (`src/serde.rs` lines 71-78):
`serializer.serialize_bytes(self.content.borrow())` — the container presents
itself to the serialization framework as its byte sequence. -/
def SecureVec.serializeBytes (v : SecureVec Nat) : List Nat :=
  v.content

/-- `impl Deserialize for SecureVec<u8>` (`src/serde.rs` lines 62-69) at the
byte-sequence boundary: the framework hands the byte buffer to
`BytesVisitor::visit_byte_buf`, which runs `SecureVec::try_from(value)`;
for `SecureVec<u8>` that conversion goes through the blanket
`From<U: Into<Vec<T>>>` implementation (`src/secure_types/vec.rs` lines
94-102) and always succeeds with `SecureVec::new(value)`. -/
def SecureVec.deserializeBytes (bytes : List Nat) :
    Except SecureConversionError (SecureVec Nat) :=
  Except.ok (SecureVec.new bytes)

/-- `impl Serialize for SecureArray<u8, LENGTH>` (`src/serde.rs` lines
89-96): `serializer.serialize_bytes(self.content.borrow())`. -/
def SecureArray.serializeBytes {LENGTH : Nat} (a : SecureArray LENGTH) :
    List Nat :=
  a.content

/-- `impl Deserialize for SecureArray<u8, LENGTH>` (`src/serde.rs` lines
80-87) at the byte-sequence boundary: `BytesVisitor::visit_byte_buf` runs
`SecureArray::try_from(value)` (the spec-modelled conversion above); on
failure serde wraps the error message — the wrapping into a framework
error string is elided. -/
def SecureArray.deserializeBytes (LENGTH : Nat) (bytes : List Nat) :
    Except SecureConversionError (SecureArray LENGTH) :=
  SecureArray.tryFromVec LENGTH bytes

/-- The UTF-8 text container `SecureString` of
`src/secure_types/string.rs`: a wrapper around a byte vector holding valid
UTF-8; modelled by the wrapped byte list (the UTF-8 validity invariant plays
no role in the claims settled here). -/
structure SecureString where
  content : List Nat

/-- `impl From<U: Into<String>> for SecureString`
(`src/secure_types/string.rs` lines 88-95):
`SecureString(SecureVec::new(s.into().into_bytes()))`. -/
def SecureString.fromString (bytes : List Nat) : SecureString :=
  SecureString.mk bytes

/-- `impl Serialize for SecureString` (`src/secure_types/string.rs` lines
105-113): `serializer.serialize_str(self.unsecure())` — the container
presents itself as its UTF-8 string, modelled by its bytes. -/
def SecureString.serializeStr (s : SecureString) : List Nat :=
  s.content

/-- `impl Deserialize for SecureString` (`src/secure_types/string.rs` lines
115-136) at the string boundary: the framework hands the string to
`SecureStringVisitor::visit_str`, which returns
`SecureString::from(v.to_string())`. -/
def SecureString.deserializeStr (bytes : List Nat) :
    Except SecureConversionError SecureString :=
  Except.ok (SecureString.fromString bytes)

/-- C9: for the secure byte vector, the fixed-length byte array and the
UTF-8 text container, serializing and then deserializing the produced
byte or string representation yields a container equal to the original. -/
theorem serialize_then_deserialize_roundtrips :
    (∀ v : SecureVec Nat,
      SecureVec.deserializeBytes (SecureVec.serializeBytes v) = Except.ok v)
    ∧ (∀ (LENGTH : Nat) (a : SecureArray LENGTH),
      SecureArray.deserializeBytes LENGTH (SecureArray.serializeBytes a)
        = Except.ok a)
    ∧ (∀ s : SecureString,
      SecureString.deserializeStr (SecureString.serializeStr s)
        = Except.ok s) := by
  refine ⟨fun v => rfl, fun LENGTH a => ?_, fun s => rfl⟩
  unfold SecureArray.deserializeBytes SecureArray.serializeBytes
  unfold SecureArray.tryFromVec
  rw [dif_pos a.hlength]

/-- The single-value secure container `SecureBox<T>` of
`src/secure_types/boxed.rs`: the content is held in an `Option` that is
`Some` outside the destructor. -/
structure SecureBox (α : Type) where
  content : Option α

/-- The flag state of a `std::fmt::Formatter`: width, precision, fill,
alternate and sign flags as set by the format string. The redaction
implementations ignore all of it. -/
structure FmtFlags where
  width : Option Nat
  precision : Option Nat
  fill : Nat
  alternate : Bool
  signPlus : Bool

/-- `impl fmt::Debug for SecureVec` (`src/secure_types/vec.rs` lines
156-163): `f.write_str("***SECRET***")`; `write_str` emits the string
directly, bypassing every formatter flag. -/
def SecureVec.fmtDebug {α : Type} (_v : SecureVec α) (_f : FmtFlags) : String :=
  "***SECRET***"

/-- `impl fmt::Display for SecureVec` (`src/secure_types/vec.rs` lines
165-172): identical to the `Debug` implementation. -/
def SecureVec.fmtDisplay {α : Type} (_v : SecureVec α) (_f : FmtFlags) : String :=
  "***SECRET***"

/-- `impl fmt::Debug for SecureArray` (`src/secure_types/array.rs` lines
174-181). -/
def SecureArray.fmtDebug {LENGTH : Nat} (_a : SecureArray LENGTH)
    (_f : FmtFlags) : String :=
  "***SECRET***"

/-- `impl fmt::Display for SecureArray` (`src/secure_types/array.rs` lines
183-190). -/
def SecureArray.fmtDisplay {LENGTH : Nat} (_a : SecureArray LENGTH)
    (_f : FmtFlags) : String :=
  "***SECRET***"

/-- `impl fmt::Debug for SecureBox` (`src/secure_types/boxed.rs` lines
120-127). -/
def SecureBox.fmtDebug {α : Type} (_b : SecureBox α) (_f : FmtFlags) : String :=
  "***SECRET***"

/-- `impl fmt::Display for SecureBox` (`src/secure_types/boxed.rs` lines
129-136). -/
def SecureBox.fmtDisplay {α : Type} (_b : SecureBox α) (_f : FmtFlags) : String :=
  "***SECRET***"

/-- `impl fmt::Debug for SecureString` (`src/secure_types/string.rs` lines
76-80). -/
def SecureString.fmtDebug (_s : SecureString) (_f : FmtFlags) : String :=
  "***SECRET***"

/-- `impl fmt::Display for SecureString` (`src/secure_types/string.rs`
lines 82-86). -/
def SecureString.fmtDisplay (_s : SecureString) (_f : FmtFlags) : String :=
  "***SECRET***"

/-- C8: for every container — vector, array, box and string — and every
content, both the `Debug` and the `Display` formatting produce exactly the
fixed redaction marker and never any part of the stored content, whatever
the formatting flags are. -/
theorem formatting_emits_redaction_marker {α : Type} (LENGTH : Nat)
    (v : SecureVec α) (a : SecureArray LENGTH) (b : SecureBox α)
    (s : SecureString) (f : FmtFlags) :
    v.fmtDebug f = "***SECRET***" ∧ v.fmtDisplay f = "***SECRET***"
    ∧ a.fmtDebug f = "***SECRET***" ∧ a.fmtDisplay f = "***SECRET***"
    ∧ b.fmtDebug f = "***SECRET***" ∧ b.fmtDisplay f = "***SECRET***"
    ∧ s.fmtDebug f = "***SECRET***" ∧ s.fmtDisplay f = "***SECRET***" :=
  ⟨rfl, rfl, rfl, rfl, rfl, rfl, rfl, rfl⟩

/-- The closed universe of element types over which the marker trait of the
crate is discussed: the primitive types named in the
`impl_no_padding_bytes!` invocation of `src/lib.rs` (lines 171-174), the
type `bool` — which that list does not include — and fixed-size arrays over
the universe (lines 176-177). -/
inductive RustTy where
  | u8 | i8 | u16 | i16 | u32 | i32 | u64 | i64 | u128 | i128
  | usize | isize | char | f32 | f64 | unit | bool
  | arr (elem : RustTy) (n : Nat)
deriving DecidableEq

/-- The `NoPaddingBytes` marker of `src/lib.rs` (lines 160-177): `true`
exactly on the enumerated primitives `u8 ... isize, char, f32, f64, ()` and
on fixed-size arrays over a marked type. `bool` is not in the enumeration,
so it does not carry the marker. -/
def noPaddingBytes : RustTy → Bool
  | RustTy.bool => false
  | RustTy.arr t _ => noPaddingBytes t
  | _ => true

/-- Which types of the universe implement `Copy`: a standard-library fact,
needed to instantiate the impl bounds of the crate — every type in the
universe is `Copy`, arrays because their elements are. -/
def hasCopy : RustTy → Bool
  | RustTy.arr t _ => hasCopy t
  | _ => true

/-- Which types of the universe implement `zeroize::Zeroize`: a fact of the
zeroize dependency — it implements `Zeroize` for all the listed primitives,
for `bool`, and for arrays of `Zeroize` types. -/
def hasZeroize : RustTy → Bool
  | RustTy.arr t _ => hasZeroize t
  | _ => true

/-- Which types of the universe implement `PartialEq`: a standard-library
fact — all the listed primitives and `bool` do, and arrays of `PartialEq`
types do. -/
def hasPartialEqImpl : RustTy → Bool
  | RustTy.arr t _ => hasPartialEqImpl t
  | _ => true

/-- The bounds of `impl PartialEq for SecVec<T>` in `src/lib.rs` (lines
455-457): the comparator-delegating equality exists for `T` exactly when
`T: Sized + Copy + Zeroize + NoPaddingBytes`. -/
def secVecEqAvail (t : RustTy) : Bool :=
  hasCopy t && hasZeroize t && noPaddingBytes t

/-- The bounds of the derived `PartialEq` for `SecureVec<T>` in
`src/secure_types/vec.rs` (line 23): the derive adds `T: PartialEq` to the
struct bounds `T: Copy + Zeroize`, and requires nothing else. -/
def secureVecEqAvail (t : RustTy) : Bool :=
  hasPartialEqImpl t && hasCopy t && hasZeroize t

/-- C3, counterexample: at the element type `bool`, the equality of the
growable `SecureVec` of `src/secure_types/vec.rs` is available — the
derived `PartialEq` only needs `bool: PartialEq + Copy + Zeroize` — yet
`bool` does not carry the `NoPaddingBytes` marker, so equality of the
growable secure buffer is not only defined when the element type carries
the no-padding capability, contrary to the claim. -/
theorem securevec_eq_available_without_capability :
    secureVecEqAvail RustTy.bool = true
    ∧ noPaddingBytes RustTy.bool = false :=
  ⟨rfl, rfl⟩

/-- C3, amended: the growable buffer `SecVec` of `src/lib.rs` computes
equality by delegating to the constant-time comparator over the live byte
ranges and its equality is only available when the element type carries the
`NoPaddingBytes` marker; the growable `SecureVec` of
`src/secure_types/vec.rs` instead derives structural equality, available
for any element type with `PartialEq + Copy + Zeroize` and without the
no-padding requirement, which on byte vectors agrees extensionally with the
comparator over the live byte ranges. -/
theorem growable_buffer_equality_delegation (t : RustTy)
    (ht : secVecEqAvail t = true) :
    noPaddingBytes t = true
    ∧ (∀ a b : SecVec, SecVec.beq a b = Mem.cmp a.content b.content)
    ∧ (∀ a b : SecureVec Nat,
        SecureVec.beq a b = timing_attack_proof_cmp a.content b.content) := by
  refine ⟨?_, fun a b => rfl, fun a b => ?_⟩
  · unfold secVecEqAvail at ht
    simp only [Bool.and_eq_true] at ht
    exact ht.2
  · rw [Bool.eq_iff_iff, timing_cmp_eq_true_iff]
    unfold SecureVec.beq
    simp only [beq_iff_eq]

/-- Witness for the amended C3 at the element type `u8` and concrete byte
vectors. -/
theorem growable_buffer_equality_delegation_witness :
    noPaddingBytes RustTy.u8 = true
    ∧ SecVec.beq (SecVec.mk [1, 2]) (SecVec.mk [1, 2]) = Mem.cmp [1, 2] [1, 2]
    ∧ SecureVec.beq (SecureVec.mk [1, 2]) (SecureVec.mk [1, 3])
        = timing_attack_proof_cmp [1, 2] [1, 3] :=
  ⟨(growable_buffer_equality_delegation RustTy.u8 rfl).1,
    (growable_buffer_equality_delegation RustTy.u8 rfl).2.1
      (SecVec.mk [1, 2]) (SecVec.mk [1, 2]),
    (growable_buffer_equality_delegation RustTy.u8 rfl).2.2
      (SecureVec.mk [1, 2]) (SecureVec.mk [1, 3])⟩
